import Mathlib

/-
  Verification of the Istanbul consensus-backend adapter
  (consensus/istanbul/backend/backend.go).

  The adapter binds the pluggable BFT round engines (legacy IBFT and
  current QBFT) to the block store, the peer-broadcast layer and the
  signing identity of the node.  The definitions below are a shallow
  embedding of the Go source: addresses, hashes, keys, signatures and
  message codes are modelled as natural numbers, byte strings as lists
  of naturals, and the external collaborators (snapshot computation,
  round engines, transport, crypto) as explicit function parameters or
  function-valued fields, since their implementations live outside the
  file under verification.
-/

namespace Quorum

/-- Errors surfaced by the adapter.  The constructors mirror the named
Go errors used in backend.go: istanbulcommon.ErrInvalidProposal,
core.ErrBlacklistedHash, consensus.ErrUnknownAncestor and
istanbulcommon.ErrInvalidSignature; other stands for any further
error value produced by a collaborator. -/
inductive Err
  | invalidProposal
  | blacklistedHash
  | unknownAncestor
  | invalidSignature
  | other (n : Nat)
deriving DecidableEq

/-- Result type used for fallible collaborator calls. -/
inductive Res (α : Type)
  | ok (a : α)
  | err (e : Err)
deriving DecidableEq

/-- Block header: the fields of types.Header that backend.go reads. -/
structure Header where
  number : Nat
  parentHash : Nat
deriving DecidableEq

/-- Block: the fields of types.Block that backend.go reads. -/
structure Block where
  number : Nat
  hash : Nat
  parentHash : Nat
deriving DecidableEq

/-- The header of a block, as block.Header(). -/
def Block.header (b : Block) : Header :=
  ⟨b.number, b.parentHash⟩

/-- An istanbul.Proposal is an interface value: either a concrete
types.Block or some other implementation (the type switch in the Go
code distinguishes exactly these two cases).  Every proposal exposes
Number() and Hash(). -/
inductive Proposal
  | block (b : Block)
  | other (number : Nat) (hash : Nat)
deriving DecidableEq

/-- Proposal.Number(). -/
def Proposal.number : Proposal → Nat
  | .block b => b.number
  | .other n _ => n

/-- Proposal.Hash(). -/
def Proposal.hash : Proposal → Nat
  | .block b => b.hash
  | .other _ h => h

/-- The validator-ordering comparator installed in the proposer policy;
StartQBFTConsensus switches it to ValidatorSortByByteFunc. -/
inductive Comparator
  | sortByString
  | sortByByte
deriving DecidableEq

/-- istanbul.ProposerPolicy: the policy identifier, the installed
comparator, and the registry of validator sets that ClearRegistry
empties. -/
structure ProposerPolicy where
  policyId : Nat
  comparator : Comparator
  registry : List Nat
deriving DecidableEq

/-- ProposerPolicy.ClearRegistry. -/
def ProposerPolicy.clearRegistry (p : ProposerPolicy) : ProposerPolicy :=
  { p with registry := [] }

/-- ProposerPolicy.Use: installs a comparator. -/
def ProposerPolicy.use (p : ProposerPolicy) (c : Comparator) : ProposerPolicy :=
  { p with comparator := c }

/-- istanbul.Config: the fields backend.go reads — the QBFT fork block
and the proposer policy. -/
structure Config where
  qbftBlock : Option Nat
  proposerPolicy : ProposerPolicy
deriving DecidableEq

/-- istanbul.ValidatorSet: the ordered validator addresses plus the
proposer policy it was built with. -/
structure ValidatorSet where
  addrs : List Nat
  policy : ProposerPolicy
deriving DecidableEq

/-- validator.NewSet. -/
def ValidatorSet.newSet (addrs : List Nat) (policy : ProposerPolicy) : ValidatorSet :=
  ⟨addrs, policy⟩

/-- A snapshot: the validator set effective at a given height and hash. -/
structure Snapshot where
  number : Nat
  hash : Nat
  valSet : ValidatorSet
deriving DecidableEq

/-- The chain-header reader collaborator, as far as backend.go uses it
in the functions modelled here: its current head header. -/
structure ChainReader where
  currentHeader : Header
deriving DecidableEq

/-- The transport collaborator (consensus.Broadcaster): FindPeers is
modelled by the set of currently connected peer addresses. -/
structure Broadcaster where
  connectedPeers : List Nat
deriving DecidableEq

/-- Which round-engine core instance is installed in sb.core. -/
inductive CoreKind
  | ibftCore
  | qbftCore
deriving DecidableEq

/-- The engine value returned by engine selection. -/
inductive Engine
  | ibft
  | qbft
deriving DecidableEq

/-- Wire-level constants used by Gossip that live outside backend.go:
the canonical istanbulMsg code and the set of QBFT message codes. -/
structure Wire where
  istanbulMsg : Nat
  qbftMessageCodes : List Nat

/-- The external cryptographic primitives used by Sign, CheckSignature
and istanbul.GetSignatureAddress: Keccak256 over a byte string, ECDSA
signing of a digest with a private key, public-key recovery from a
digest and signature, and address derivation from a public key. -/
structure CryptoModel where
  keccak : List Nat → Nat
  ecSign : Nat → Nat → Nat
  sigToPub : Nat → Nat → Res Nat
  pubkeyToAddress : Nat → Nat

/-- The Backend structure of backend.go, restricted to the state the
verified functions touch.  Function-valued fields stand for external
collaborators whose code is outside backend.go: the snapshot
computation, the active round-engine entry points, and RLPHash. -/
structure Backend where
  config : Config
  privateKey : Nat
  address : Nat
  chain : Option ChainReader
  currentBlock : Block
  hasBadBlock : Option (Nat → Bool)
  proposedBlockHash : Nat
  coreStarted : Bool
  qbftConsensusEnabled : Bool
  core : CoreKind
  broadcaster : Option Broadcaster
  recentMessages : List (Nat × List Nat)
  knownMessages : List Nat
  snapshotFn : Nat → Nat → Res Snapshot
  verifyBlockProposalFn : Block → ValidatorSet → Nat × Option Err
  commitHeaderFn : Block → List Nat → Nat → Res Block
  authorFn : Header → Res Nat
  rlpHash : List Nat → Nat

/-- Subtraction of 1 on a uint64, as header.Number.Uint64()-1 computes
it in Go (wrapping at 2^64). -/
def u64sub1 (n : Nat) : Nat :=
  (n + (2 ^ 64 - 1)) % 2 ^ 64

/-- IsQBFTConsensusForHeader: qbft is used for a header when the fork
block is configured and is 0, or when the chain reader is installed and
the header height is at or past the fork block. -/
def Backend.IsQBFTConsensusForHeader (sb : Backend) (header : Header) : Bool :=
  match sb.config.qbftBlock with
  | none => false
  | some qb =>
    if qb = 0 then true
    else if sb.chain.isSome && decide (header.number ≥ qb) then true
    else false

/-- IsQBFTConsensus: the override flag forces qbft; otherwise the
decision is made for the current head header when a chain is set. -/
def Backend.IsQBFTConsensus (sb : Backend) : Bool :=
  if sb.qbftConsensusEnabled then true
  else
    match sb.chain with
    | some c => sb.IsQBFTConsensusForHeader c.currentHeader
    | none => false

/-- EngineForHeader: the switch statement selecting between the qbft
and ibft engines, with a nil header meaning the current head. -/
def Backend.EngineForHeader (sb : Backend) (header : Option Header) : Engine :=
  match header with
  | none => if sb.IsQBFTConsensus then .qbft else .ibft
  | some h => if sb.IsQBFTConsensusForHeader h then .qbft else .ibft

/-- Engine(): EngineForHeader with a nil header. -/
def Backend.engineSel (sb : Backend) : Engine :=
  sb.EngineForHeader none

/-- HasBadProposal: false when no bad-block predicate is installed,
otherwise the predicate applied to the hash. -/
def Backend.HasBadProposal (sb : Backend) (hash : Nat) : Bool :=
  match sb.hasBadBlock with
  | none => false
  | some f => f hash

/-- Verify: type-check the proposal, consult the bad-block predicate,
compute the snapshot at (number-1, parentHash), and delegate to the
active round-engine VerifyBlockProposal. -/
def Backend.Verify (sb : Backend) (proposal : Proposal) : Nat × Option Err :=
  match proposal with
  | .other _ _ => (0, some .invalidProposal)
  | .block block =>
    if sb.HasBadProposal block.hash then (0, some .blacklistedHash)
    else
      match sb.snapshotFn (u64sub1 block.number) block.parentHash with
      | .err e => (0, some e)
      | .ok snap => sb.verifyBlockProposalFn block snap.valSet

/-- The observable outcome of a Commit call: the error returned, and
which completion path ran (the commit-channel send of the local-seal
path, or the broadcaster Enqueue of the foreign-commit path). -/
inductive CommitOutcome
  | invalidProposal
  | commitHeaderErr (e : Err)
  | localSeal (b : Block)
  | foreignCommit (b : Block)
  | noBroadcaster (b : Block)
deriving DecidableEq

/-- Whether the outcome corresponds to Commit returning nil. -/
def CommitOutcome.isSuccess : CommitOutcome → Bool
  | .invalidProposal => false
  | .commitHeaderErr _ => false
  | .localSeal _ => true
  | .foreignCommit _ => true
  | .noBroadcaster _ => true

/-- Whether the local-seal path ran (block fed to the commit channel). -/
def CommitOutcome.isLocalSeal : CommitOutcome → Bool
  | .localSeal _ => true
  | _ => false

/-- Whether the foreign-commit path ran (block enqueued for import). -/
def CommitOutcome.isForeignCommit : CommitOutcome → Bool
  | .foreignCommit _ => true
  | _ => false

/-- Commit: type-check the proposal, let the active engine commit the
header (the engine CommitHeader call followed by block.WithSeal is
abstracted as commitHeaderFn, returning the sealed block), clear the
proposer-policy registry, then either feed the sealed block to the
commit channel when its hash equals proposedBlockHash, or enqueue it
with the broadcaster. -/
def Backend.Commit (sb : Backend) (proposal : Proposal) (seals : List Nat) (round : Nat) :
    CommitOutcome × Backend :=
  match proposal with
  | .other _ _ => (.invalidProposal, sb)
  | .block block =>
    match sb.commitHeaderFn block seals round with
    | .err e => (.commitHeaderErr e, sb)
    | .ok sealed =>
      let sb1 := { sb with
        config := { sb.config with proposerPolicy := sb.config.proposerPolicy.clearRegistry } }
      if sb1.proposedBlockHash = sealed.hash then (.localSeal sealed, sb1)
      else
        match sb1.broadcaster with
        | some _ => (.foreignCommit sealed, sb1)
        | none => (.noBroadcaster sealed, sb1)

/-- Sign: Keccak256 the data, then sign the digest with the private
key. -/
def Backend.Sign (c : CryptoModel) (sb : Backend) (data : List Nat) : Nat :=
  c.ecSign (c.keccak data) sb.privateKey

/-- istanbul.GetSignatureAddress: hash the data, recover the public
key from the signature, derive the signer address. -/
def GetSignatureAddress (c : CryptoModel) (data : List Nat) (sig : Nat) : Res Nat :=
  match c.sigToPub (c.keccak data) sig with
  | .err e => .err e
  | .ok pk => .ok (c.pubkeyToAddress pk)

/-- CheckSignature: recover the signer address and compare it with the
claimed address; none means success. -/
def Backend.CheckSignature (c : CryptoModel) (sb : Backend) (data : List Nat)
    (address : Nat) (sig : Nat) : Option Err :=
  match GetSignatureAddress c data sig with
  | .err e => some e
  | .ok signer => if signer ≠ address then some .invalidSignature else none

/-- getValidators: the validator set of the snapshot at (number, hash),
or a fresh empty set with the configured policy when the snapshot
computation fails. -/
def Backend.getValidators (sb : Backend) (number : Nat) (hash : Nat) : ValidatorSet :=
  match sb.snapshotFn number hash with
  | .err _ => ValidatorSet.newSet [] sb.config.proposerPolicy
  | .ok snap => snap.valSet

/-- Validators: getValidators at the proposal height and hash. -/
def Backend.Validators (sb : Backend) (proposal : Proposal) : ValidatorSet :=
  sb.getValidators proposal.number proposal.hash

/-- ParentValidators: for a block, getValidators at the parent; for any
other proposal, a fresh empty set with the configured policy. -/
def Backend.ParentValidators (sb : Backend) (proposal : Proposal) : ValidatorSet :=
  match proposal with
  | .block b => sb.getValidators (u64sub1 b.number) b.parentHash
  | .other _ _ => ValidatorSet.newSet [] sb.config.proposerPolicy

/-- LastProposal: the current head block with its recovered proposer;
at height 0 the proposer is the zero address; when proposer recovery
fails, the call returns a nil proposal and the zero address. -/
def Backend.LastProposal (sb : Backend) : Option Block × Nat :=
  let block := sb.currentBlock
  if block.number > 0 then
    match sb.authorFn block.header with
    | .err _ => (none, 0)
    | .ok a => (some block, a)
  else (some block, 0)

/-- Lookup of the per-peer seen cache for an address
(sb.recentMessages.Get(addr)). -/
def lookupSeen (rm : List (Nat × List Nat)) (addr : Nat) : Option (List Nat) :=
  match rm with
  | [] => none
  | (a, m) :: rest => if a = addr then some m else lookupSeen rest addr

/-- Store the per-peer seen cache for an address
(sb.recentMessages.Add(addr, m)). -/
def updateSeen (rm : List (Nat × List Nat)) (addr : Nat) (m : List Nat) :
    List (Nat × List Nat) :=
  match rm with
  | [] => [(addr, m)]
  | (a, m0) :: rest =>
    if a = addr then (addr, m) :: rest else (a, m0) :: updateSeen rest addr m

/-- Whether the per-peer cache for an address already holds a hash. -/
def seenBy (rm : List (Nat × List Nat)) (addr : Nat) (hash : Nat) : Bool :=
  match lookupSeen rm addr with
  | some m => hash ∈ m
  | none => false

/-- The outbound code computation inside the Gossip send loop: under
qbft, a recognized qbft message code passes through and anything else
is normalized to istanbulMsg; under ibft, istanbulMsg is always used. -/
def outboundCode (w : Wire) (isQbft : Bool) (code : Nat) : Nat :=
  if isQbft then
    if code ∈ w.qbftMessageCodes then code else w.istanbulMsg
  else w.istanbulMsg

/-- One transport send performed by Gossip: the target peer address,
the outbound message code, whether the qbft wire method was used, and
the payload. -/
structure SendRec where
  addr : Nat
  code : Nat
  qbftWire : Bool
  payload : List Nat
deriving DecidableEq

/-- An istanbul.MessageEvent posted to the local event mux. -/
structure MessageEvent where
  code : Nat
  payload : List Nat
deriving DecidableEq

/-- The for-range loop of Gossip over the resolved peers: a peer whose
seen cache holds the hash is skipped; otherwise the hash is recorded
for that peer and the payload is sent to it. -/
def gossipLoop (w : Wire) (isQbft : Bool) (code : Nat) (payload : List Nat) (hash : Nat)
    (ps : List Nat) (rm : List (Nat × List Nat)) :
    List SendRec × List (Nat × List Nat) :=
  match ps with
  | [] => ([], rm)
  | addr :: rest =>
    match lookupSeen rm addr with
    | some m =>
      if hash ∈ m then gossipLoop w isQbft code payload hash rest rm
      else
        let rm1 := updateSeen rm addr (hash :: m)
        let r := gossipLoop w isQbft code payload hash rest rm1
        (⟨addr, outboundCode w isQbft code, isQbft, payload⟩ :: r.1, r.2)
    | none =>
      let rm1 := updateSeen rm addr [hash]
      let r := gossipLoop w isQbft code payload hash rest rm1
      (⟨addr, outboundCode w isQbft code, isQbft, payload⟩ :: r.1, r.2)

/-- The target addresses Gossip computes: the validator addresses minus
the node address, as a set (Go builds a map keyed by address). -/
def gossipTargets (sb : Backend) (valSet : ValidatorSet) : List Nat :=
  (valSet.addrs.filter (fun a => a ≠ sb.address)).dedup

/-- The peers FindPeers resolves for the targets: the connected subset. -/
def resolvedPeers (br : Broadcaster) (targets : List Nat) : List Nat :=
  targets.filter (fun a => a ∈ br.connectedPeers)

/-- Gossip: record the payload hash as self-seen, compute the targets
(validator set minus self), resolve live peers through the broadcaster,
and run the send loop.  Returns the transport sends performed and the
updated backend state. -/
def Backend.Gossip (w : Wire) (sb : Backend) (valSet : ValidatorSet) (code : Nat)
    (payload : List Nat) : List SendRec × Backend :=
  let hash := sb.rlpHash payload
  let sb1 := { sb with knownMessages := hash :: sb.knownMessages }
  let targets := gossipTargets sb valSet
  match sb.broadcaster with
  | none => ([], sb1)
  | some br =>
    if targets.isEmpty then ([], sb1)
    else
      let ps := resolvedPeers br targets
      let r := gossipLoop w sb.IsQBFTConsensus code payload hash ps sb1.recentMessages
      (r.1, { sb1 with recentMessages := r.2 })

/-- Broadcast: Gossip to the others, then post the message event to the
local event mux once.  Returns the transport sends, the locally posted
events, and the updated backend state. -/
def Backend.Broadcast (w : Wire) (sb : Backend) (valSet : ValidatorSet) (code : Nat)
    (payload : List Nat) : List SendRec × List MessageEvent × Backend :=
  let r := sb.Gossip w valSet code payload
  (r.1, [⟨code, payload⟩], r.2)

/-- Modelled from the spec: the Stop method of the Backend is not part
of the verified source file; per the spec it performs an idempotent
stop of whichever round-engine instance is currently running.  The
result of stopping the running engine is abstracted as the coreStopRes
parameter; on engine-stop failure the error is returned with the
adapter state unchanged, on success the adapter is marked not
running. -/
def Backend.Stop (sb : Backend) (coreStopRes : Res Unit) : Res Backend :=
  if sb.coreStarted then
    match coreStopRes with
    | .err e => .err e
    | .ok _ => .ok { sb with coreStarted := false }
  else .ok sb

/-- StartQBFTConsensus: stop the running engine, install a fresh qbft
core, switch the proposer-policy comparator to byte ordering, start the
new core (its result abstracted as startRes), and only then mark the
adapter running and raise the override flag.  Returns the error (none
on success) together with the adapter state after the call. -/
def Backend.StartQBFTConsensus (sb : Backend) (coreStopRes : Res Unit)
    (startRes : Res Unit) : Option Err × Backend :=
  match sb.Stop coreStopRes with
  | .err e => (some e, sb)
  | .ok sb1 =>
    let sb2 := { sb1 with
      core := .qbftCore,
      config := { sb1.config with
        proposerPolicy := sb1.config.proposerPolicy.use .sortByByte } }
    match startRes with
    | .err e => (some e, sb2)
    | .ok _ => (none, { sb2 with coreStarted := true, qbftConsensusEnabled := true })

/-- Uint64 subtraction by one agrees with Nat subtraction away from 0. -/
theorem u64sub1_eq (n : Nat) (h1 : 1 ≤ n) (h2 : n < 2 ^ 64) : u64sub1 n = n - 1 := by
  unfold u64sub1
  have hp : (2 : Nat) ^ 64 = 18446744073709551616 := by norm_num
  rw [hp] at h2 ⊢
  omega

/-- Updating the cache of one address only changes the lookup at that
address. -/
theorem lookupSeen_updateSeen (a b : Nat) (m : List Nat) (rm : List (Nat × List Nat)) :
    lookupSeen (updateSeen rm a m) b = if b = a then some m else lookupSeen rm b := by
  induction rm with
  | nil =>
    by_cases h : b = a
    · subst h; simp [updateSeen, lookupSeen]
    · simp only [updateSeen, lookupSeen]
      rw [if_neg (fun e => h e.symm), if_neg h]
  | cons hd tl ih =>
    obtain ⟨x, mx⟩ := hd
    by_cases hxa : x = a
    · subst hxa
      simp only [updateSeen, if_pos rfl, lookupSeen]
      by_cases hbx : b = x
      · subst hbx; simp
      · rw [if_neg (fun e => hbx e.symm), if_neg hbx, if_neg (fun e => hbx e.symm)]
    · simp only [updateSeen, if_neg hxa, lookupSeen]
      by_cases hxb : x = b
      · subst hxb
        rw [if_pos rfl, if_neg hxa, if_pos rfl]
      · rw [if_neg hxb, if_neg hxb, ih]

/-- The seen flag of a different address is unchanged by an update. -/
theorem seenBy_updateSeen_ne (rm : List (Nat × List Nat)) (a b h : Nat) (m : List Nat)
    (hne : b ≠ a) : seenBy (updateSeen rm a m) b h = seenBy rm b h := by
  unfold seenBy
  rw [lookupSeen_updateSeen, if_neg hne]

/-- The seen flag of the updated address reflects the stored cache. -/
theorem seenBy_updateSeen_self (rm : List (Nat × List Nat)) (a h : Nat) (m : List Nat) :
    seenBy (updateSeen rm a m) a h = decide (h ∈ m) := by
  unfold seenBy
  rw [lookupSeen_updateSeen, if_pos rfl]

/-- The sends performed by the gossip loop over peers with distinct
addresses: exactly the peers whose cache does not yet hold the hash,
in order, each sent the payload with the computed outbound code. -/
theorem gossipLoop_sends (w : Wire) (q : Bool) (c : Nat) (p : List Nat) (h : Nat) :
    ∀ ps : List Nat, ∀ rm : List (Nat × List Nat), ps.Nodup →
      (gossipLoop w q c p h ps rm).1 =
        (ps.filter (fun a => !seenBy rm a h)).map
          (fun a => ⟨a, outboundCode w q c, q, p⟩) := by
  intro ps
  induction ps with
  | nil => intro rm _; simp [gossipLoop]
  | cons addr rest ih =>
    intro rm hnd
    have hnd2 : rest.Nodup := hnd.of_cons
    have haddr : addr ∉ rest := (List.nodup_cons.mp hnd).1
    cases hl : lookupSeen rm addr with
    | some m =>
      by_cases hm : h ∈ m
      · have hs : seenBy rm addr h = true := by
          unfold seenBy; rw [hl]; exact decide_eq_true hm
        simp only [gossipLoop, hl, if_pos hm]
        rw [ih rm hnd2, List.filter_cons, hs]
        simp
      · have hs : seenBy rm addr h = false := by
          unfold seenBy; rw [hl]; exact decide_eq_false hm
        simp only [gossipLoop, hl, if_neg hm]
        rw [ih _ hnd2]
        have hcong : ∀ a ∈ rest,
            (!seenBy (updateSeen rm addr (h :: m)) a h) = (!seenBy rm a h) := by
          intro a ha
          rw [seenBy_updateSeen_ne _ _ _ _ _ (fun e => haddr (by rw [e] at ha; exact ha))]
        rw [List.filter_congr hcong, List.filter_cons, hs]
        simp
    | none =>
      have hs : seenBy rm addr h = false := by unfold seenBy; rw [hl]
      simp only [gossipLoop, hl]
      rw [ih _ hnd2]
      have hcong : ∀ a ∈ rest,
          (!seenBy (updateSeen rm addr [h]) a h) = (!seenBy rm a h) := by
        intro a ha
        rw [seenBy_updateSeen_ne _ _ _ _ _ (fun e => haddr (by rw [e] at ha; exact ha))]
      rw [List.filter_congr hcong, List.filter_cons, hs]
      simp

/-- After the gossip loop over peers with distinct addresses, an
address has the hash recorded exactly when it already had it or it was
among the processed peers. -/
theorem gossipLoop_seen (w : Wire) (q : Bool) (c : Nat) (p : List Nat) (h : Nat) :
    ∀ ps : List Nat, ∀ rm : List (Nat × List Nat), ps.Nodup → ∀ b,
      seenBy (gossipLoop w q c p h ps rm).2 b h =
        (seenBy rm b h || decide (b ∈ ps)) := by
  intro ps
  induction ps with
  | nil => intro rm _ b; simp [gossipLoop]
  | cons addr rest ih =>
    intro rm hnd b
    have hnd2 : rest.Nodup := hnd.of_cons
    cases hl : lookupSeen rm addr with
    | some m =>
      by_cases hm : h ∈ m
      · have hs : seenBy rm addr h = true := by
          unfold seenBy; rw [hl]; exact decide_eq_true hm
        simp only [gossipLoop, hl, if_pos hm]
        rw [ih rm hnd2 b]
        by_cases hb : b = addr
        · subst hb; simp [hs]
        · simp [hb]
      · have hs1 : seenBy (updateSeen rm addr (h :: m)) addr h = true := by
          rw [seenBy_updateSeen_self]; simp
        simp only [gossipLoop, hl, if_neg hm]
        rw [ih _ hnd2 b]
        by_cases hb : b = addr
        · subst hb; simp [hs1]
        · rw [seenBy_updateSeen_ne _ _ _ _ _ hb]
          simp [hb]
    | none =>
      have hs1 : seenBy (updateSeen rm addr [h]) addr h = true := by
        rw [seenBy_updateSeen_self]; simp
      have hs : seenBy rm addr h = false := by unfold seenBy; rw [hl]
      simp only [gossipLoop, hl]
      rw [ih _ hnd2 b]
      by_cases hb : b = addr
      · subst hb; simp [hs1, hs]
      · rw [seenBy_updateSeen_ne _ _ _ _ _ hb]
        simp [hb]

/-- A successful Stop leaves the adapter not running and does not touch
the override flag, the installed core or the configuration. -/
theorem stop_ok_state (sb : Backend) (cs : Res Unit) (sb1 : Backend)
    (h : sb.Stop cs = .ok sb1) :
    sb1.coreStarted = false ∧ sb1.qbftConsensusEnabled = sb.qbftConsensusEnabled
      ∧ sb1.core = sb.core ∧ sb1.config = sb.config := by
  unfold Backend.Stop at h
  by_cases hc : sb.coreStarted
  · rw [if_pos hc] at h
    cases cs with
    | err e => exact absurd h (by simp)
    | ok u =>
      injection h with h2
      subst h2
      exact ⟨rfl, rfl, rfl, rfl⟩
  · rw [if_neg hc] at h
    injection h with h2
    subst h2
    simp only [Bool.not_eq_true] at hc
    exact ⟨hc, rfl, rfl, rfl⟩

/-- A default proposer policy for concrete instances. -/
def policy0 : ProposerPolicy :=
  ⟨0, .sortByString, []⟩

/-- A concrete backend used as the base of the evaluation instances. -/
def mkBackend : Backend where
  config := ⟨none, policy0⟩
  privateKey := 5
  address := 0
  chain := none
  currentBlock := ⟨0, 0, 0⟩
  hasBadBlock := none
  proposedBlockHash := 0
  coreStarted := false
  qbftConsensusEnabled := false
  core := .ibftCore
  broadcaster := none
  recentMessages := []
  knownMessages := []
  snapshotFn := fun _ _ => .err .unknownAncestor
  verifyBlockProposalFn := fun _ _ => (0, none)
  commitHeaderFn := fun b _ _ => .ok b
  authorFn := fun _ => .ok 0
  rlpHash := fun l => l.sum

/-- Backend with the override flag raised, the fork configured at 10
and a chain reader installed. -/
def sbOverride : Backend :=
  { mkBackend with
    qbftConsensusEnabled := true,
    chain := some ⟨⟨0, 0⟩⟩,
    config := ⟨some 10, policy0⟩ }

/-- Claim C1, counterexample: with the override flag set and the fork
height configured at 10, engine selection for a height-1 header returns
the legacy engine, not the current one — EngineForHeader consults the
override flag only when no header is supplied. -/
theorem engineForHeader_override_cex :
    sbOverride.qbftConsensusEnabled = true
      ∧ sbOverride.config.qbftBlock = some 10
      ∧ sbOverride.EngineForHeader (some ⟨1, 0⟩) = .ibft
      ∧ Engine.ibft ≠ Engine.qbft := by
  refine ⟨rfl, rfl, ?_, by decide⟩
  decide

/-- Claim C1, amended: once the override flag is set, engine selection
with no header supplied returns the current engine; selection for a
supplied header ignores the override flag and follows the fork-height
rule, so with the override active and the fork height above the header
height the legacy engine is returned. -/
theorem engineForHeader_override_amended (sb : Backend) (h : Header) (qb : Nat) :
    (sb.qbftConsensusEnabled = true → sb.EngineForHeader none = .qbft)
      ∧ (sb.config.qbftBlock = some qb → qb ≠ 0 → h.number < qb →
          sb.EngineForHeader (some h) = .ibft) := by
  constructor
  · intro hflag
    simp [Backend.EngineForHeader, Backend.IsQBFTConsensus, hflag]
  · intro hqb hqb0 hlt
    have hfalse : sb.IsQBFTConsensusForHeader h = false := by
      unfold Backend.IsQBFTConsensusForHeader
      rw [hqb]
      simp only [if_neg hqb0]
      have : decide (h.number ≥ qb) = false := by
        simp [Nat.not_le.mpr hlt]
      simp [this]
    simp [Backend.EngineForHeader, hfalse]

/-- Claim C1, witness for the amended statement at the concrete
override backend: selection with no header returns the current engine
while a height-1 header returns the legacy engine. -/
theorem engineForHeader_override_amended_witness :
    sbOverride.EngineForHeader none = .qbft
      ∧ sbOverride.EngineForHeader (some ⟨1, 0⟩) = .ibft := by
  exact ⟨(engineForHeader_override_amended sbOverride ⟨1, 0⟩ 10).1 rfl,
    (engineForHeader_override_amended sbOverride ⟨1, 0⟩ 10).2 rfl (by decide) (by decide)⟩

/-- Claim C2: with the override flag not set and a chain reader
installed, engine selection for a supplied header follows the
fork-height rule of IsQBFTConsensusForHeader: undefined fork height
selects the legacy engine, fork height 0 selects the current engine, a
header at or past the fork height selects the current engine, and a
header below a nonzero fork height selects the legacy engine. -/
theorem engineForHeader_fork_rule (sb : Backend) (h : Header) (qb : Nat)
    (hflag : sb.qbftConsensusEnabled = false) (hchain : sb.chain.isSome = true) :
    (sb.config.qbftBlock = none → sb.EngineForHeader (some h) = .ibft)
      ∧ (sb.config.qbftBlock = some 0 → sb.EngineForHeader (some h) = .qbft)
      ∧ (sb.config.qbftBlock = some qb → h.number ≥ qb →
          sb.EngineForHeader (some h) = .qbft)
      ∧ (sb.config.qbftBlock = some qb → qb ≠ 0 → h.number < qb →
          sb.EngineForHeader (some h) = .ibft) := by
  refine ⟨?_, ?_, ?_, ?_⟩
  · intro hqb
    simp [Backend.EngineForHeader, Backend.IsQBFTConsensusForHeader, hqb]
  · intro hqb
    simp [Backend.EngineForHeader, Backend.IsQBFTConsensusForHeader, hqb]
  · intro hqb hge
    unfold Backend.EngineForHeader Backend.IsQBFTConsensusForHeader
    rw [hqb]
    by_cases hqb0 : qb = 0
    · simp [hqb0]
    · simp [hqb0, hchain, hge]
  · intro hqb hqb0 hlt
    exact (engineForHeader_override_amended sb h qb).2 hqb hqb0 hlt

/-- Backend with the fork configured at 10, the override flag unset and
a chain reader installed. -/
def sbFork10 : Backend :=
  { mkBackend with
    chain := some ⟨⟨0, 0⟩⟩,
    config := ⟨some 10, policy0⟩ }

/-- Claim C2, witness: with the fork height configured at 10, a
height-10 header selects the current engine and a height-9 header the
legacy engine. -/
theorem engineForHeader_fork_rule_witness :
    sbFork10.EngineForHeader (some ⟨10, 0⟩) = .qbft
      ∧ sbFork10.EngineForHeader (some ⟨9, 0⟩) = .ibft := by
  exact ⟨(engineForHeader_fork_rule sbFork10 ⟨10, 0⟩ 10 rfl rfl).2.2.1 rfl (by decide),
    (engineForHeader_fork_rule sbFork10 ⟨9, 0⟩ 10 rfl rfl).2.2.2 rfl (by decide) (by decide)⟩

/-- Claim C5: Verify rejects a non-block proposal with the invalid
proposal error and zero retry delay; rejects a blacklisted block hash;
propagates a snapshot error for (height-1, parentHash) unchanged; and
on snapshot success returns exactly the result of the active round
engine VerifyBlockProposal. -/
theorem verify_pipeline (sb : Backend) (b : Block) (e : Err) (snap : Snapshot)
    (m k : Nat) :
    (sb.Verify (.other m k) = (0, some .invalidProposal))
      ∧ (sb.HasBadProposal b.hash = true →
          sb.Verify (.block b) = (0, some .blacklistedHash))
      ∧ (sb.HasBadProposal b.hash = false → 1 ≤ b.number → b.number < 2 ^ 64 →
          sb.snapshotFn (b.number - 1) b.parentHash = .err e →
          sb.Verify (.block b) = (0, some e))
      ∧ (sb.HasBadProposal b.hash = false → 1 ≤ b.number → b.number < 2 ^ 64 →
          sb.snapshotFn (b.number - 1) b.parentHash = .ok snap →
          sb.Verify (.block b) = sb.verifyBlockProposalFn b snap.valSet) := by
  refine ⟨rfl, ?_, ?_, ?_⟩
  · intro hbad
    simp [Backend.Verify, hbad]
  · intro hbad h1 h2 hsnap
    simp [Backend.Verify, hbad, u64sub1_eq b.number h1 h2, hsnap]
  · intro hbad h1 h2 hsnap
    simp [Backend.Verify, hbad, u64sub1_eq b.number h1 h2, hsnap]

/-- Backend whose bad-block predicate blacklists exactly hash 42. -/
def sbBad42 : Backend :=
  { mkBackend with hasBadBlock := some (fun h => h = 42) }

/-- Backend whose snapshot computation succeeds with a one-validator
set and whose engine verification returns a delay of 3 and no error. -/
def sbSnapOk : Backend :=
  { mkBackend with
    snapshotFn := fun _ _ => .ok ⟨4, 0, ⟨[8], policy0⟩⟩,
    verifyBlockProposalFn := fun _ _ => (3, none) }

/-- Claim C5, witness: Verify evaluated on a non-block proposal, a
blacklisted block, a block whose snapshot fails, and a block whose
snapshot succeeds. -/
theorem verify_pipeline_witness :
    (sbBad42.Verify (.other 1 2) = (0, some .invalidProposal))
      ∧ (sbBad42.Verify (.block ⟨5, 42, 0⟩) = (0, some .blacklistedHash))
      ∧ (sbBad42.Verify (.block ⟨5, 1, 0⟩) = (0, some .unknownAncestor))
      ∧ (sbSnapOk.Verify (.block ⟨5, 1, 0⟩) = (3, none)) := by
  refine ⟨(verify_pipeline sbBad42 ⟨5, 42, 0⟩ .unknownAncestor ⟨0, 0, ⟨[], policy0⟩⟩ 1 2).1,
    (verify_pipeline sbBad42 ⟨5, 42, 0⟩ .unknownAncestor ⟨0, 0, ⟨[], policy0⟩⟩ 1 2).2.1
      (by decide),
    (verify_pipeline sbBad42 ⟨5, 1, 0⟩ .unknownAncestor ⟨0, 0, ⟨[], policy0⟩⟩ 1 2).2.2.1
      (by decide) (by decide) (by decide) rfl,
    (verify_pipeline sbSnapOk ⟨5, 1, 0⟩ .unknownAncestor ⟨4, 0, ⟨[8], policy0⟩⟩ 1 2).2.2.2
      (by decide) (by decide) (by decide) rfl⟩

/-- Backend with an installed broadcaster whose pending proposal hash
99 matches neither of the two committed blocks. -/
def sbNoMatch : Backend :=
  { mkBackend with proposedBlockHash := 99, broadcaster := some ⟨[]⟩ }

/-- Claim C3, counterexample: two successful Commit calls at the same
height with sealed hashes 1 and 2, while the pending proposal hash is
99: neither call takes the local-seal path — both enqueue with the
broadcaster — so it is not the case that exactly one of every such pair
takes the local-seal path. -/
theorem commit_race_cex :
    ((sbNoMatch.Commit (.block ⟨5, 1, 0⟩) [] 0).1.isSuccess = true)
      ∧ ((sbNoMatch.Commit (.block ⟨5, 2, 0⟩) [] 0).1.isSuccess = true)
      ∧ ((sbNoMatch.Commit (.block ⟨5, 1, 0⟩) [] 0).1 = .foreignCommit ⟨5, 1, 0⟩)
      ∧ ((sbNoMatch.Commit (.block ⟨5, 2, 0⟩) [] 0).1 = .foreignCommit ⟨5, 2, 0⟩)
      ∧ ((sbNoMatch.Commit (.block ⟨5, 1, 0⟩) [] 0).1.isLocalSeal = false)
      ∧ ((sbNoMatch.Commit (.block ⟨5, 2, 0⟩) [] 0).1.isLocalSeal = false) := by
  decide

/-- Claim C3, amended: for two successful Commit calls at the same
height with different sealed hashes, where the broadcaster is installed
and one of the two sealed hashes equals the adapter pending proposal
hash, the matching call takes exactly the local-seal path and the other
takes exactly the foreign-commit path. -/
theorem commit_race_amended (sb : Backend) (b1 b2 s1 s2 : Block)
    (seals1 seals2 : List Nat) (r1 r2 : Nat) (br : Broadcaster)
    (hbr : sb.broadcaster = some br)
    (h1 : sb.commitHeaderFn b1 seals1 r1 = .ok s1)
    (h2 : sb.commitHeaderFn b2 seals2 r2 = .ok s2)
    (hheight : b1.number = b2.number)
    (hne : s1.hash ≠ s2.hash)
    (hmatch : sb.proposedBlockHash = s1.hash) :
    ((sb.Commit (.block b1) seals1 r1).1 = .localSeal s1)
      ∧ ((sb.Commit (.block b2) seals2 r2).1 = .foreignCommit s2)
      ∧ ((sb.Commit (.block b1) seals1 r1).1.isForeignCommit = false)
      ∧ ((sb.Commit (.block b2) seals2 r2).1.isLocalSeal = false)
      ∧ ((sb.Commit (.block b1) seals1 r1).1.isSuccess = true)
      ∧ ((sb.Commit (.block b2) seals2 r2).1.isSuccess = true) := by
  have hc1 : (sb.Commit (.block b1) seals1 r1).1 = .localSeal s1 := by
    simp [Backend.Commit, h1, hmatch]
  have hc2 : (sb.Commit (.block b2) seals2 r2).1 = .foreignCommit s2 := by
    have hp : sb.proposedBlockHash ≠ s2.hash := by rw [hmatch]; exact hne
    simp [Backend.Commit, h2, hp, hbr]
  refine ⟨hc1, hc2, ?_, ?_, ?_, ?_⟩
  · rw [hc1]; rfl
  · rw [hc2]; rfl
  · rw [hc1]; rfl
  · rw [hc2]; rfl

/-- Backend with an installed broadcaster whose pending proposal hash
matches the first committed block. -/
def sbMatch1 : Backend :=
  { mkBackend with proposedBlockHash := 1, broadcaster := some ⟨[]⟩ }

/-- Claim C3, witness for the amended statement: with pending proposal
hash 1, the commit of the block with hash 1 takes the local-seal path
and the commit of the block with hash 2 is enqueued. -/
theorem commit_race_amended_witness :
    ((sbMatch1.Commit (.block ⟨5, 1, 0⟩) [] 0).1 = .localSeal ⟨5, 1, 0⟩)
      ∧ ((sbMatch1.Commit (.block ⟨5, 2, 0⟩) [] 0).1 = .foreignCommit ⟨5, 2, 0⟩) := by
  have h := commit_race_amended sbMatch1 ⟨5, 1, 0⟩ ⟨5, 2, 0⟩ ⟨5, 1, 0⟩ ⟨5, 2, 0⟩
    [] [] 0 0 ⟨[]⟩ rfl rfl rfl rfl (by decide) rfl
  exact ⟨h.1, h.2.1⟩

/-- Backend representing an adapter whose legacy engine is currently
running. -/
def sbRunning : Backend :=
  { mkBackend with coreStarted := true }

/-- Claim C4, counterexample: when stopping the old engine fails, the
switchover returns the error but the adapter is NOT left without a
running engine — coreStarted is still set, the old engine keeps
running — contradicting the claim that any failing step leaves
coreStarted unset. -/
theorem switchover_stop_failure_cex :
    ((sbRunning.StartQBFTConsensus (.err (.other 1)) (.ok ())).1 = some (.other 1))
      ∧ ((sbRunning.StartQBFTConsensus (.err (.other 1)) (.ok ())).2.coreStarted = true)
      ∧ ((sbRunning.StartQBFTConsensus (.err (.other 1)) (.ok ())).2.qbftConsensusEnabled
          = false) := by
  refine ⟨rfl, rfl, rfl⟩

/-- Claim C4, amended: starting from an adapter with the override flag
unset, a successful switchover installs the qbft core, switches the
proposer comparator to byte ordering and only then marks the adapter
running with the override flag raised; if starting the new engine
fails, the call returns the error with the override flag still unset
and no running engine; if stopping the old engine fails, the call
returns the error with the adapter state unchanged (so a previously
running old engine is still marked running). -/
theorem switchover_amended (sb : Backend) (cs st : Res Unit) (sb1 : Backend) (e : Err)
    (hflag : sb.qbftConsensusEnabled = false) :
    (sb.Stop cs = .ok sb1 → st = .ok () →
        (sb.StartQBFTConsensus cs st).1 = none
          ∧ (sb.StartQBFTConsensus cs st).2.core = .qbftCore
          ∧ (sb.StartQBFTConsensus cs st).2.config.proposerPolicy.comparator = .sortByByte
          ∧ (sb.StartQBFTConsensus cs st).2.coreStarted = true
          ∧ (sb.StartQBFTConsensus cs st).2.qbftConsensusEnabled = true)
      ∧ (sb.Stop cs = .ok sb1 → st = .err e →
          (sb.StartQBFTConsensus cs st).1 = some e
            ∧ (sb.StartQBFTConsensus cs st).2.coreStarted = false
            ∧ (sb.StartQBFTConsensus cs st).2.qbftConsensusEnabled = false
            ∧ (sb.StartQBFTConsensus cs st).2.core = .qbftCore
            ∧ (sb.StartQBFTConsensus cs st).2.config.proposerPolicy.comparator
                = .sortByByte)
      ∧ (sb.Stop cs = .err e →
          (sb.StartQBFTConsensus cs st) = (some e, sb)) := by
  refine ⟨?_, ?_, ?_⟩
  · intro hstop hst
    subst hst
    simp [Backend.StartQBFTConsensus, hstop, ProposerPolicy.use]
  · intro hstop hst
    subst hst
    have hs := stop_ok_state sb cs sb1 hstop
    simp [Backend.StartQBFTConsensus, hstop, ProposerPolicy.use, hs.1, hs.2.1, hflag]
  · intro hstop
    simp [Backend.StartQBFTConsensus, hstop]

/-- Claim C4, witness for the amended statement: a successful
switchover from the base adapter ends with the qbft core installed, the
byte comparator, the adapter running and the override flag raised; and
a failing engine start ends with an error, no running engine and the
override flag unset. -/
theorem switchover_amended_witness :
    ((mkBackend.StartQBFTConsensus (.ok ()) (.ok ())).1 = none)
      ∧ ((mkBackend.StartQBFTConsensus (.ok ()) (.ok ())).2.core = .qbftCore)
      ∧ ((mkBackend.StartQBFTConsensus (.ok ()) (.ok ())).2.coreStarted = true)
      ∧ ((mkBackend.StartQBFTConsensus (.ok ()) (.ok ())).2.qbftConsensusEnabled = true)
      ∧ ((mkBackend.StartQBFTConsensus (.ok ()) (.err (.other 7))).1 = some (.other 7))
      ∧ ((mkBackend.StartQBFTConsensus (.ok ()) (.err (.other 7))).2.coreStarted = false)
      ∧ ((mkBackend.StartQBFTConsensus
            (.ok ()) (.err (.other 7))).2.qbftConsensusEnabled = false) := by
  have hok := (switchover_amended mkBackend (.ok ()) (.ok ()) mkBackend
    (.other 7) rfl).1 rfl rfl
  have herr := (switchover_amended mkBackend (.ok ()) (.err (.other 7)) mkBackend
    (.other 7) rfl).2.1 rfl rfl
  exact ⟨hok.1, hok.2.1, hok.2.2.2.1, hok.2.2.2.2, herr.1, herr.2.1, herr.2.2.1⟩

/-- Claim C6: Sign hashes the data with the Keccak function and signs
the digest with the private key; given that public-key recovery is
correct for this key (recovering the signing key yields the address the
adapter was built with), CheckSignature of the own signature succeeds
for the own address and fails with the invalid-signature error for
every other address. -/
theorem sign_roundtrip (c : CryptoModel) (sb : Backend) (data : List Nat)
    (pk a : Nat)
    (hrec : c.sigToPub (c.keccak data) (c.ecSign (c.keccak data) sb.privateKey) = .ok pk)
    (haddr : c.pubkeyToAddress pk = sb.address) :
    (Backend.Sign c sb data = c.ecSign (c.keccak data) sb.privateKey)
      ∧ (Backend.CheckSignature c sb data sb.address (Backend.Sign c sb data) = none)
      ∧ (a ≠ sb.address →
          Backend.CheckSignature c sb data a (Backend.Sign c sb data)
            = some .invalidSignature) := by
  refine ⟨rfl, ?_, ?_⟩
  · simp [Backend.CheckSignature, GetSignatureAddress, Backend.Sign, hrec, haddr]
  · intro hne
    simp [Backend.CheckSignature, GetSignatureAddress, Backend.Sign, hrec, haddr]
    exact fun e => absurd e.symm hne

/-- Concrete crypto primitives satisfying the recovery property for the
witness: the digest is the byte sum, signing adds the key, recovery
subtracts the digest, and the address of a public key is itself. -/
def cryptoW : CryptoModel :=
  ⟨fun l => l.sum, fun d k => d + k, fun d s => .ok (s - d), fun pk => pk⟩

/-- Backend whose address is derived from its private key under the
witness crypto primitives. -/
def sbKey5 : Backend :=
  { mkBackend with privateKey := 5, address := 5 }

/-- Claim C6, witness: under the concrete crypto primitives, the
signature over [1, 2] checks against the own address 5 and is rejected
with the invalid-signature error for address 7. -/
theorem sign_roundtrip_witness :
    (Backend.CheckSignature cryptoW sbKey5 [1, 2] 5
        (Backend.Sign cryptoW sbKey5 [1, 2]) = none)
      ∧ (Backend.CheckSignature cryptoW sbKey5 [1, 2] 7
          (Backend.Sign cryptoW sbKey5 [1, 2]) = some .invalidSignature) := by
  have h := sign_roundtrip cryptoW sbKey5 [1, 2] 5 7 rfl rfl
  exact ⟨h.2.1, h.2.2 (by decide)⟩

/-- Characterization of Gossip with an installed broadcaster: the
transport sends are exactly the resolved peers not yet seen carrying
the hash, and after the call every resolved peer has the hash recorded
in its cache. -/
theorem gossip_main (w : Wire) (sb : Backend) (valSet : ValidatorSet) (code : Nat)
    (payload : List Nat) (br : Broadcaster) (hbr : sb.broadcaster = some br) :
    ((sb.Gossip w valSet code payload).1 =
        ((resolvedPeers br (gossipTargets sb valSet)).filter
            (fun a => !seenBy sb.recentMessages a (sb.rlpHash payload))).map
          (fun a => ⟨a, outboundCode w sb.IsQBFTConsensus code,
            sb.IsQBFTConsensus, payload⟩))
      ∧ (∀ b ∈ resolvedPeers br (gossipTargets sb valSet),
          seenBy (sb.Gossip w valSet code payload).2.recentMessages b
            (sb.rlpHash payload) = true) := by
  by_cases hT : (gossipTargets sb valSet).isEmpty
  · have hps : resolvedPeers br (gossipTargets sb valSet) = [] := by
      unfold resolvedPeers
      rw [List.isEmpty_iff.mp hT]
      rfl
    constructor
    · rw [hps]
      simp [Backend.Gossip, hbr, hT]
    · rw [hps]
      intro b hb
      simp at hb
  · have hne : (gossipTargets sb valSet).isEmpty = false := by
      cases h0 : (gossipTargets sb valSet).isEmpty
      · rfl
      · exact absurd h0 hT
    have hnodup : (resolvedPeers br (gossipTargets sb valSet)).Nodup :=
      List.Nodup.filter _ (List.nodup_dedup _)
    have hfst : (sb.Gossip w valSet code payload).1 =
        (gossipLoop w sb.IsQBFTConsensus code payload (sb.rlpHash payload)
          (resolvedPeers br (gossipTargets sb valSet)) sb.recentMessages).1 := by
      simp [Backend.Gossip, hbr, hne]
    have hsnd : (sb.Gossip w valSet code payload).2.recentMessages =
        (gossipLoop w sb.IsQBFTConsensus code payload (sb.rlpHash payload)
          (resolvedPeers br (gossipTargets sb valSet)) sb.recentMessages).2 := by
      simp [Backend.Gossip, hbr, hne]
    constructor
    · rw [hfst]
      exact gossipLoop_sends _ _ _ _ _ _ _ hnodup
    · intro b hb
      rw [hsnd, gossipLoop_seen _ _ _ _ _ _ _ hnodup b]
      simp [hb]

/-- Claim C7: with an installed broadcaster, Broadcast sends the
payload exactly to the resolved peers whose cache does not yet hold the
payload hash; it never sends to the own address; peers already marked
as having seen the hash are skipped; every peer that was sent to has
the hash recorded in its cache afterwards; and exactly one message
event is posted to the local event mux. -/
theorem broadcast_gossip_fanout (w : Wire) (sb : Backend) (valSet : ValidatorSet)
    (code : Nat) (payload : List Nat) (br : Broadcaster)
    (hbr : sb.broadcaster = some br) :
    ((sb.Broadcast w valSet code payload).1 =
        ((resolvedPeers br (gossipTargets sb valSet)).filter
            (fun a => !seenBy sb.recentMessages a (sb.rlpHash payload))).map
          (fun a => ⟨a, outboundCode w sb.IsQBFTConsensus code,
            sb.IsQBFTConsensus, payload⟩))
      ∧ (sb.address ∉ (sb.Broadcast w valSet code payload).1.map SendRec.addr)
      ∧ (∀ a, seenBy sb.recentMessages a (sb.rlpHash payload) = true →
          a ∉ (sb.Broadcast w valSet code payload).1.map SendRec.addr)
      ∧ (∀ s ∈ (sb.Broadcast w valSet code payload).1,
          seenBy (sb.Broadcast w valSet code payload).2.2.recentMessages s.addr
            (sb.rlpHash payload) = true)
      ∧ ((sb.Broadcast w valSet code payload).2.1 = [⟨code, payload⟩]) := by
  have hg := gossip_main w sb valSet code payload br hbr
  have heq : (sb.Broadcast w valSet code payload).1 =
      ((resolvedPeers br (gossipTargets sb valSet)).filter
          (fun a => !seenBy sb.recentMessages a (sb.rlpHash payload))).map
        (fun a => ⟨a, outboundCode w sb.IsQBFTConsensus code,
          sb.IsQBFTConsensus, payload⟩) := hg.1
  have haddrs : (sb.Broadcast w valSet code payload).1.map SendRec.addr =
      (resolvedPeers br (gossipTargets sb valSet)).filter
        (fun a => !seenBy sb.recentMessages a (sb.rlpHash payload)) := by
    rw [heq, List.map_map]
    show List.map (fun a => a) ((resolvedPeers br (gossipTargets sb valSet)).filter
        (fun a => !seenBy sb.recentMessages a (sb.rlpHash payload))) =
      (resolvedPeers br (gossipTargets sb valSet)).filter
        (fun a => !seenBy sb.recentMessages a (sb.rlpHash payload))
    exact List.map_id' _
  refine ⟨heq, ?_, ?_, ?_, rfl⟩
  · intro hmem
    rw [haddrs] at hmem
    have h1 := List.mem_filter.mp hmem
    have h3 := h1.1
    simp only [resolvedPeers, List.mem_filter, decide_eq_true_eq] at h3
    have h2 := h3.1
    simp only [gossipTargets, List.mem_dedup, List.mem_filter, decide_eq_true_eq] at h2
    exact h2.2 rfl
  · intro a hseen hmem
    rw [haddrs] at hmem
    have h1 := List.mem_filter.mp hmem
    rw [hseen] at h1
    simp at h1
  · intro s hs
    rw [heq] at hs
    obtain ⟨a, ha, hsa⟩ := List.mem_map.mp hs
    have haps : a ∈ resolvedPeers br (gossipTargets sb valSet) :=
      List.mem_of_mem_filter ha
    have := hg.2 a haps
    rw [← hsa]
    exact this

/-- Backend of the concrete gossip scenario: node address 0, four
connected validator peers 1 to 4, and peer 2 already holding the hash
of the payload [7] (the witness rlpHash is the byte sum, 7). -/
def sbGossip : Backend :=
  { mkBackend with
    broadcaster := some ⟨[1, 2, 3, 4]⟩,
    recentMessages := [(2, [7])] }

/-- The validator set of the concrete gossip scenario. -/
def vs4 : ValidatorSet :=
  ⟨[1, 2, 3, 4], policy0⟩

/-- Wire constants for the concrete gossip scenario. -/
def wire0 : Wire :=
  ⟨17, [18, 19, 20, 21]⟩

/-- Claim C7, witness: broadcasting payload [7] (hash 7) to the
four-peer validator set where peer 2 already has the hash results in
exactly the three sends to peers 1, 3 and 4, no send to peer 2 or to
the own address 0, and exactly one locally posted event. -/
theorem broadcast_gossip_fanout_witness :
    ((sbGossip.Broadcast wire0 vs4 9 [7]).1.map SendRec.addr = [1, 3, 4])
      ∧ ((2 : Nat) ∉ (sbGossip.Broadcast wire0 vs4 9 [7]).1.map SendRec.addr)
      ∧ ((0 : Nat) ∉ (sbGossip.Broadcast wire0 vs4 9 [7]).1.map SendRec.addr)
      ∧ ((sbGossip.Broadcast wire0 vs4 9 [7]).1.length = 3)
      ∧ ((sbGossip.Broadcast wire0 vs4 9 [7]).2.1 = [⟨9, [7]⟩]) := by
  have h := broadcast_gossip_fanout wire0 sbGossip vs4 9 [7] ⟨[1, 2, 3, 4]⟩ rfl
  refine ⟨?_, h.2.2.1 2 (by decide), h.2.1, ?_, h.2.2.2.2⟩
  · rw [h.1]
    decide
  · rw [h.1]
    decide

/-- Claim C8: whenever the snapshot computation fails, getValidators
and Validators return a fresh empty validator set carrying the
configured proposer policy, ParentValidators does the same for a block
whose parent snapshot fails, and ParentValidators returns the empty set
for a proposal that is not a block. -/
theorem validators_empty_on_snapshot_failure (sb : Backend) (n h : Nat) (e : Err)
    (b : Block) (p : Proposal) (m k : Nat) :
    (sb.snapshotFn n h = .err e →
        sb.getValidators n h = ValidatorSet.newSet [] sb.config.proposerPolicy)
      ∧ (sb.snapshotFn p.number p.hash = .err e →
          sb.Validators p = ValidatorSet.newSet [] sb.config.proposerPolicy)
      ∧ (1 ≤ b.number → b.number < 2 ^ 64 →
          sb.snapshotFn (b.number - 1) b.parentHash = .err e →
          sb.ParentValidators (.block b) = ValidatorSet.newSet [] sb.config.proposerPolicy)
      ∧ (sb.ParentValidators (.other m k) = ValidatorSet.newSet [] sb.config.proposerPolicy) := by
  refine ⟨?_, ?_, ?_, rfl⟩
  · intro hsnap
    simp [Backend.getValidators, hsnap]
  · intro hsnap
    simp [Backend.Validators, Backend.getValidators, hsnap]
  · intro h1 h2 hsnap
    simp [Backend.ParentValidators, Backend.getValidators,
      u64sub1_eq b.number h1 h2, hsnap]

/-- Claim C8, witness: on the base backend, whose snapshot computation
always fails, all accessors return the empty set with the configured
policy. -/
theorem validators_empty_on_snapshot_failure_witness :
    (mkBackend.getValidators 3 4 = ValidatorSet.newSet [] policy0)
      ∧ (mkBackend.Validators (.block ⟨5, 1, 0⟩) = ValidatorSet.newSet [] policy0)
      ∧ (mkBackend.ParentValidators (.block ⟨5, 1, 0⟩) = ValidatorSet.newSet [] policy0)
      ∧ (mkBackend.ParentValidators (.other 1 2) = ValidatorSet.newSet [] policy0) := by
  have h := validators_empty_on_snapshot_failure mkBackend 3 4 .unknownAncestor
    ⟨5, 1, 0⟩ (.block ⟨5, 1, 0⟩) 1 2
  exact ⟨h.1 rfl, h.2.1 rfl, h.2.2.1 (by decide) (by decide) rfl, h.2.2.2⟩

/-- Backend whose head block is at height 5 and whose proposer
recovery fails. -/
def sbAuthorErr : Backend :=
  { mkBackend with
    currentBlock := ⟨5, 7, 3⟩,
    authorFn := fun _ => .err (.other 2) }

/-- Claim C9, counterexample: when proposer recovery from the head
header fails, LastProposal returns a nil proposal together with the
zero address — it does not return the head block. -/
theorem lastProposal_author_failure_cex :
    (sbAuthorErr.currentBlock = ⟨5, 7, 3⟩)
      ∧ (sbAuthorErr.LastProposal = (none, 0)) := by
  exact ⟨rfl, rfl⟩

/-- Claim C9, amended: LastProposal returns the head block with its
recovered proposer; at height 0 it returns the head block with the zero
address without attempting recovery; and when proposer recovery fails
it fails soft by returning the zero address, but with a nil proposal in
place of the head block. -/
theorem lastProposal_amended (sb : Backend) (a : Nat) (e : Err) :
    (sb.currentBlock.number > 0 → sb.authorFn sb.currentBlock.header = .ok a →
        sb.LastProposal = (some sb.currentBlock, a))
      ∧ (sb.currentBlock.number > 0 → sb.authorFn sb.currentBlock.header = .err e →
          sb.LastProposal = (none, 0))
      ∧ (sb.currentBlock.number = 0 → sb.LastProposal = (some sb.currentBlock, 0)) := by
  refine ⟨?_, ?_, ?_⟩
  · intro hn ha
    simp [Backend.LastProposal, hn, ha]
  · intro hn ha
    simp [Backend.LastProposal, hn, ha]
  · intro hn
    simp [Backend.LastProposal, hn]

/-- Backend whose head block is at height 5 and whose proposer
recovery returns address 8. -/
def sbAuthorOk : Backend :=
  { mkBackend with
    currentBlock := ⟨5, 7, 3⟩,
    authorFn := fun _ => .ok 8 }

/-- Claim C9, witness for the amended statement: successful recovery
returns the head with its proposer, failing recovery returns a nil
proposal with the zero address, and the height-0 head returns the head
with the zero address. -/
theorem lastProposal_amended_witness :
    (sbAuthorOk.LastProposal = (some ⟨5, 7, 3⟩, 8))
      ∧ (sbAuthorErr.LastProposal = (none, 0))
      ∧ (mkBackend.LastProposal = (some ⟨0, 0, 0⟩, 0)) := by
  exact ⟨(lastProposal_amended sbAuthorOk 8 (.other 2)).1 (by decide) rfl,
    (lastProposal_amended sbAuthorErr 8 (.other 2)).2.1 (by decide) rfl,
    (lastProposal_amended mkBackend 8 (.other 2)).2.2 rfl⟩

/-- Claim C10: with no bad-block predicate installed, HasBadProposal is
false for every hash, and Verify cannot fail with the blacklisted-block
error provided its collaborators (the snapshot computation and the
engine verification) do not themselves produce that error. -/
theorem no_blacklist_without_predicate (sb : Backend) (p : Proposal) (h : Nat)
    (hnil : sb.hasBadBlock = none) :
    (sb.HasBadProposal h = false)
      ∧ ((∀ n k e, sb.snapshotFn n k = .err e → e ≠ .blacklistedHash) →
          (∀ b vs, (sb.verifyBlockProposalFn b vs).2 ≠ some .blacklistedHash) →
          (sb.Verify p).2 ≠ some .blacklistedHash) := by
  have hbad : ∀ x, sb.HasBadProposal x = false := by
    intro x
    simp [Backend.HasBadProposal, hnil]
  refine ⟨hbad h, ?_⟩
  intro hsnap heng
  cases p with
  | other m k =>
    simp [Backend.Verify]
  | block b =>
    simp only [Backend.Verify, hbad b.hash]
    cases hs : sb.snapshotFn (u64sub1 b.number) b.parentHash with
    | err e =>
      have := hsnap _ _ _ hs
      simpa using this
    | ok snap =>
      simpa using heng b snap.valSet

/-- Claim C10, witness: the base backend has no bad-block predicate;
HasBadProposal is false at hash 42 and Verify of a block does not
return the blacklisted-block error. -/
theorem no_blacklist_without_predicate_witness :
    (mkBackend.HasBadProposal 42 = false)
      ∧ ((mkBackend.Verify (.block ⟨5, 1, 0⟩)).2 ≠ some .blacklistedHash) := by
  have h := no_blacklist_without_predicate mkBackend (.block ⟨5, 1, 0⟩) 42 rfl
  refine ⟨h.1, h.2 ?_ ?_⟩
  · intro n k e he
    injection he with h2
    subst h2
    decide
  · intro b vs
    simp [mkBackend]

end Quorum
